import Mathlib

/-!
Shallow embedding of `src/index.ts` of the write-to-clipboard repository:
`ClipboardManager.writeToClipboard` (the coordinator, lines 41-179) together
with event-level models of the per-method timeout timer (lines 96-116), the
abort-listener registrations of the coordinator and of each strategy, and the
DOM element lifecycle of the two DOM-based strategies `writeWithExecCommand`
(lines 230-348) and `writeWithWebKitFallback` (lines 354-469).

Modelling conventions:
* JavaScript promises are flattened into explicit outcomes; the outcome of the
  `Promise.race` of a method attempt against its timeout/abort rejection is
  supplied by an environment function (`Env.race`), one value per loop
  iteration.
* `queueMicrotask(() => callback(result))` is modelled by appending `result`
  to a `microtasks` queue: the callback runs asynchronously, after the call
  has returned, so its behaviour cannot influence the returned value.
* `signal?.aborted` reads are modelled as one boolean per well-defined
  checkpoint.  The two reads at source lines 118 and 150 happen in the same
  synchronous turn as each other (no `await` between them), hence share one
  checkpoint value per iteration (`SignalB.abortedAfter i`).
* A logger that throws is modelled by `LoggerB.throws`; the thrown error
  propagates exactly where the source has no enclosing `try`.
-/

/-- Logging levels accepted by the `logger` collaborator (source lines 14-18). -/
inductive LogLevel
  | success
  | warning
  | error
deriving DecidableEq

/-- One synchronous invocation of the `logger` collaborator. -/
structure LogEntry where
  level : LogLevel
  message : String
deriving DecidableEq

/-- The `ClipboardResult` shape (source lines 29-35).  Optional fields that a
given branch of the source does not set are modelled as `none`. -/
structure ClipboardResult where
  success : Bool
  method : Option String := none
  error : Option String := none
  identifier : Option String := none
  cancelled : Option Bool := none
deriving DecidableEq

/-- An abort signal, observed at the call's checkpoints: `alreadyAborted` is
the value of `signal.aborted` at the entry check (source line 59);
`abortedAfter i` is its value at the checkpoint after the race of method
attempt `i` settles (the reads at source lines 118 and 150, which run in the
same synchronous turn of iteration `i`). -/
structure SignalB where
  alreadyAborted : Bool
  abortedAfter : Nat → Bool

/-- Value of `signal?.aborted` at the entry check: `false` when no signal was
supplied. -/
def sigAborted0 : Option SignalB → Bool
  | none => false
  | some s => s.alreadyAborted

/-- Value of `signal?.aborted` at the post-race checkpoint of iteration `i`. -/
def sigAbortedAfter : Option SignalB → Nat → Bool
  | none, _ => false
  | some s, i => s.abortedAfter i

/-- Behaviour of a supplied `logger` collaborator: if `throws` is `true`,
every invocation records its entry and then throws an error whose message is
`throwMsg`. -/
structure LoggerB where
  throws : Bool
  throwMsg : String

/-- The `ClipboardOptions` shape (source lines 8-27).  The `callback` field
only records presence: its own behaviour runs in a later microtask and cannot
affect the call. -/
structure ClipboardOptions where
  identifier : Option String := none
  timeout : Option Nat := none
  logger : Option LoggerB := none
  successMessage : Option String := none
  errorMessage : Option String := none
  signal : Option SignalB := none
  callback : Bool := false

/-- The `text` argument as JavaScript sees it: a genuine string, or any
non-string value (e.g. `null`). -/
inductive TextInput
  | str (s : String)
  | notAString

/-- The validation test `!text || typeof text !== 'string'` (source line 71):
for a string, `!text` holds exactly for the empty string; every non-string
fails the `typeof` test. -/
def isInvalidText : TextInput → Bool
  | .str s => s = ""
  | .notAString => true

/-- Underlying string of a valid text input (`""` in the unreachable
non-string case). -/
def textString : TextInput → String
  | .str s => s
  | .notAString => ""

/-- Outcome of `Promise.race([method.fn.call(this, text, signal), timeoutPromise])`
(source lines 113-116) for one iteration: the attempt resolved with a
`success` flag, or the race rejected (method threw/rejected, timeout fired,
or the abort listener of the timeout promise rejected). -/
inductive RaceOutcome
  | resolved (success : Bool)
  | rejected (msg : String)

/-- Host environment of one call: whether the Chrome extension channel is
detected (source lines 46-47), and the race outcome of each loop iteration. -/
structure Env where
  isExtensionContext : Bool
  race : Nat → RaceOutcome

/-- The cancellation result built at source lines 60-65, 119-124 and
151-156 (all three sites build the same value). -/
def cancelResult (identifier : Option String) : ClipboardResult :=
  { success := false, error := some "Operation cancelled", cancelled := some true,
    identifier := identifier }

/-- The fixed validation error message (source line 72). -/
def invalidTextError : String := "Invalid text provided for clipboard operation"

/-- The validation-failure result (source line 74). -/
def invalidResult (identifier : Option String) : ClipboardResult :=
  { success := false, error := some invalidTextError, identifier := identifier }

/-- The default exhaustion error message (source line 170). -/
def defaultExhaustedError : String := "All clipboard methods failed"

/-- The exhaustion result (source lines 170-173). -/
def exhaustedResult (errorMessage : Option String) (identifier : Option String) :
    ClipboardResult :=
  { success := false, error := some (errorMessage.getD defaultExhaustedError),
    identifier := identifier }

/-- Message passed to the logger on success (source lines 137-139):
the caller's `successMessage`, or the default built from the first 50
characters of the text. -/
def successLogMessage (successMessage : Option String) (text : String) : String :=
  match successMessage with
  | some m => m
  | none => "Written to clipboard: " ++ text.take 50 ++
      (if 50 < text.length then "..." else "")

/-- The ordered method list (source lines 80-92), a pure function of the
extension-context detection. -/
def methodOrder (isExtensionContext : Bool) : List String :=
  if isExtensionContext then
    ["navigator.clipboard", "extension-fallback", "execCommand", "webkit-fallback"]
  else
    ["navigator.clipboard", "execCommand", "webkit-fallback", "extension-fallback"]

/-- How the `for` loop over methods (source lines 94-167) ends: an early
`return` with a result, normal exhaustion of the list, or an exception (a
throwing logger) propagating out of the `async` function. -/
inductive LoopExit
  | returned (r : ClipboardResult)
  | exhausted
  | threw (msg : String)
deriving DecidableEq

/-- Observable effects of running the method loop. -/
structure LoopOut where
  exit : LoopExit
  logs : List LogEntry
  microtasks : List ClipboardResult
  attempted : List String

/-- The method loop (source lines 94-167).  `i` is the iteration index used to
address the environment's race outcomes and the signal checkpoints.  Each
iteration: race the attempt (outcome from `env.race i`); on settlement check
`signal?.aborted` (lines 118 and 150); on a resolved success log, queue the
callback and return; on a resolved non-success fall through silently; on a
rejection log a warning and continue. -/
def runMethods (text : String) (identifier : Option String) (logger : Option LoggerB)
    (successMessage : Option String) (signal : Option SignalB) (callback : Bool)
    (env : Env) : List String → Nat → LoopOut
  | [], _ => { exit := .exhausted, logs := [], microtasks := [], attempted := [] }
  | name :: rest, i =>
    match env.race i with
    | .resolved sc =>
      if sigAbortedAfter signal i then
        { exit := .returned (cancelResult identifier), logs := [],
          microtasks := if callback then [cancelResult identifier] else [],
          attempted := [name] }
      else if sc then
        match logger with
        | none =>
          { exit := .returned { success := true, method := some name, identifier := identifier },
            logs := [],
            microtasks := if callback then
              [{ success := true, method := some name, identifier := identifier }] else [],
            attempted := [name] }
        | some lg =>
          if lg.throws then
            { exit := .threw lg.throwMsg,
              logs := [{ level := .success, message := successLogMessage successMessage text },
                       { level := .warning, message := name ++ " failed: " ++ lg.throwMsg }],
              microtasks := [], attempted := [name] }
          else
            { exit := .returned { success := true, method := some name, identifier := identifier },
              logs := [{ level := .success, message := successLogMessage successMessage text }],
              microtasks := if callback then
                [{ success := true, method := some name, identifier := identifier }] else [],
              attempted := [name] }
      else
        let next := runMethods text identifier logger successMessage signal callback env rest (i + 1)
        { next with attempted := name :: next.attempted }
    | .rejected msg =>
      if sigAbortedAfter signal i then
        { exit := .returned (cancelResult identifier), logs := [],
          microtasks := if callback then [cancelResult identifier] else [],
          attempted := [name] }
      else
        match logger with
        | none =>
          let next := runMethods text identifier logger successMessage signal callback env rest (i + 1)
          { next with attempted := name :: next.attempted }
        | some lg =>
          if lg.throws then
            { exit := .threw lg.throwMsg,
              logs := [{ level := .warning, message := name ++ " failed: " ++ msg }],
              microtasks := [], attempted := [name] }
          else
            let next := runMethods text identifier logger successMessage signal callback env rest (i + 1)
            { next with
              logs := { level := .warning, message := name ++ " failed: " ++ msg } :: next.logs,
              attempted := name :: next.attempted }

instance {ε α : Type} [DecidableEq ε] [DecidableEq α] : DecidableEq (Except ε α) := fun a b =>
  match a, b with
  | .ok x, .ok y =>
      if h : x = y then .isTrue (by rw [h]) else .isFalse (fun hh => h (Except.ok.inj hh))
  | .error x, .error y =>
      if h : x = y then .isTrue (by rw [h]) else .isFalse (fun hh => h (Except.error.inj hh))
  | .ok _, .error _ => .isFalse (fun hh => Except.noConfusion hh)
  | .error _, .ok _ => .isFalse (fun hh => Except.noConfusion hh)

/-- Observable behaviour of one `writeToClipboard` call: the returned result
(or the propagated exception), the ordered logger invocations, the queued
callback microtasks, and the names of the methods whose attempt function was
invoked. -/
structure CallOutput where
  outcome : Except String ClipboardResult
  logs : List LogEntry
  microtasks : List ClipboardResult
  attempted : List String
deriving DecidableEq

/-- The coordinator `ClipboardManager.writeToClipboard` (source lines 41-179):
entry cancellation check (59-68), input validation (70-77), method-order
selection (79-92), the method loop (94-167) and the exhaustion branch
(169-178). -/
def writeToClipboard (text : TextInput) (options : ClipboardOptions) (env : Env) :
    CallOutput :=
  if sigAborted0 options.signal then
    { outcome := .ok (cancelResult options.identifier), logs := [],
      microtasks := if options.callback then [cancelResult options.identifier] else [],
      attempted := [] }
  else if isInvalidText text then
    match options.logger with
    | none =>
      { outcome := .ok (invalidResult options.identifier), logs := [],
        microtasks := if options.callback then [invalidResult options.identifier] else [],
        attempted := [] }
    | some lg =>
      if lg.throws then
        { outcome := .error lg.throwMsg,
          logs := [{ level := .error, message := invalidTextError }],
          microtasks := [], attempted := [] }
      else
        { outcome := .ok (invalidResult options.identifier),
          logs := [{ level := .error, message := invalidTextError }],
          microtasks := if options.callback then [invalidResult options.identifier] else [],
          attempted := [] }
  else
    let lo := runMethods (textString text) options.identifier options.logger
      options.successMessage options.signal options.callback env
      (methodOrder env.isExtensionContext) 0
    match lo.exit with
    | .returned r =>
      { outcome := .ok r, logs := lo.logs, microtasks := lo.microtasks,
        attempted := lo.attempted }
    | .threw m =>
      { outcome := .error m, logs := lo.logs, microtasks := lo.microtasks,
        attempted := lo.attempted }
    | .exhausted =>
      match options.logger with
      | none =>
        { outcome := .ok (exhaustedResult options.errorMessage options.identifier),
          logs := lo.logs,
          microtasks := lo.microtasks ++
            (if options.callback then
              [exhaustedResult options.errorMessage options.identifier] else []),
          attempted := lo.attempted }
      | some lg =>
        if lg.throws then
          { outcome := .error lg.throwMsg,
            logs := lo.logs ++
              [{ level := .error,
                 message := (options.errorMessage.getD defaultExhaustedError) }],
            microtasks := lo.microtasks, attempted := lo.attempted }
        else
          { outcome := .ok (exhaustedResult options.errorMessage options.identifier),
            logs := lo.logs ++
              [{ level := .error,
                 message := (options.errorMessage.getD defaultExhaustedError) }],
            microtasks := lo.microtasks ++
              (if options.callback then
                [exhaustedResult options.errorMessage options.identifier] else []),
            attempted := lo.attempted }

/-! Event-level model of the per-method timeout promise (source lines 96-116).
The timer is set when the race is built; the only `clearTimeout` in the
source sits inside the abort listener (line 106), so the timer is cleared
exactly when the signal fires.  Times are instants on one iteration's
timeline, measured from the moment the race is built. -/

/-- Timing data of one iteration's race: the timer duration (source line 100),
the instant at which the method attempt settles (if ever), and the instant at
which the abort signal fires (if ever; `none` also covers the no-signal
case). -/
structure RaceConfig where
  timeout : Nat
  attemptTime : Option Nat
  abortTime : Option Nat

/-- Instant at which `Promise.race` settles: the earliest of the attempt
settling, the abort listener rejecting, and the timer firing. -/
def raceSettleTime (c : RaceConfig) : Nat :=
  min c.timeout (min (c.attemptTime.getD c.timeout) (c.abortTime.getD c.timeout))

/-- Whether `clearTimeout` has run by instant `t`: the only call site is the
abort listener (source line 106), which runs when the signal fires. -/
def timerClearedBy (c : RaceConfig) (t : Nat) : Bool :=
  match c.abortTime with
  | none => false
  | some a => a ≤ t

/-- Whether the timer has fired by instant `t`. -/
def timerFiredBy (c : RaceConfig) (t : Nat) : Bool :=
  c.timeout ≤ t

/-- Whether a pending timer remains at the instant the race settles: the
timer was set, has not fired, and has not been cleared. -/
def timerPendingAfterSettle (c : RaceConfig) : Bool :=
  !timerFiredBy c (raceSettleTime c) && !timerClearedBy c (raceSettleTime c)

/-! Event-level model of the DOM element lifecycle of `writeWithExecCommand`
(source lines 230-348) and `writeWithWebKitFallback` (source lines 354-469).
Each strategy run records the ordered `appendChild`/`removeChild` operations
on `document.body`, both up to the instant its promise settles
(`opsAtSettle`) and after every task it scheduled has run (`ops`), together
with the number of abort listeners it registers on the caller's signal. -/

/-- One DOM mutation on `document.body`. -/
inductive DomOp
  | attach (el : String)
  | remove (el : String)
deriving DecidableEq

/-- Apply one DOM operation to the list of currently attached elements. -/
def applyOp (attached : List String) : DomOp → List String
  | .attach e => e :: attached
  | .remove e => attached.erase e

/-- Elements attached to `document.body` after a sequence of operations. -/
def attachedAfter (ops : List DomOp) : List String :=
  ops.foldl applyOp []

/-- How a strategy's promise settles. -/
inductive StratExit
  | resolvedOk
  | rejectedWith (msg : String)
deriving DecidableEq

/-- Behaviour of one `document.execCommand` invocation in the host. -/
inductive ExecBehavior
  | returns (b : Bool)
  | throws (msg : String)
deriving DecidableEq

/-- Observable trace of one strategy run. -/
structure StratTrace where
  exit : StratExit
  opsAtSettle : List DomOp
  ops : List DomOp
  listeners : Nat
deriving DecidableEq

/-- Environment of one `writeWithExecCommand` run.  The boolean fields are the
values of `signal?.aborted` at the strategy's checkpoints (source lines 234,
254 and 291); `listenerFiresEarly` says the abort event fires between the
promise construction and the 0 ms timer callback of line 250, so the abort
listener of line 240 rejects the promise before that callback runs. -/
structure ExecEnv where
  abortedAtEntry : Bool
  listenerFiresEarly : Bool
  abortedAtCbStart : Bool
  abortedAfterAttach : Bool
  execAvailable : Bool
  exec1 : ExecBehavior
  exec2 : ExecBehavior
  exec3 : ExecBehavior
  signalPresent : Bool

/-- The three-stage `execCommand` retry of source lines 312-323: the first
call's behaviour, on a throw the second, and on a second throw the third
(whose own throw propagates to the outer catch of line 335). -/
def execAttempts (a b c : ExecBehavior) : ExecBehavior :=
  match a with
  | .returns r => .returns r
  | .throws _ =>
    match b with
    | .returns r => .returns r
    | .throws _ => c

/-- The 0 ms timer callback of `writeWithExecCommand` (source lines 250-346):
DOM operations performed and how it settles the promise (its settlement is
ignored if the abort listener settled the promise first). -/
def execCbRun (e : ExecEnv) : List DomOp × StratExit :=
  if e.abortedAtCbStart then ([], .rejectedWith "Operation cancelled")
  else if !e.execAvailable then ([], .rejectedWith "execCommand not available")
  else if e.abortedAfterAttach then
    ([.attach "textarea", .remove "textarea"], .rejectedWith "Operation cancelled")
  else
    match execAttempts e.exec1 e.exec2 e.exec3 with
    | .returns true => ([.attach "textarea", .remove "textarea"], .resolvedOk)
    | .returns false =>
      ([.attach "textarea", .remove "textarea"], .rejectedWith "execCommand copy returned false")
    | .throws m => ([.attach "textarea", .remove "textarea"], .rejectedWith m)

/-- Trace of one `writeWithExecCommand` run (source lines 230-348): entry
abort check (234), abort listener registration (239-247), and the 0 ms timer
callback, which runs even when the abort listener has already rejected the
promise. -/
def writeWithExecCommandTrace (e : ExecEnv) : StratTrace :=
  if e.abortedAtEntry then
    { exit := .rejectedWith "Operation cancelled", opsAtSettle := [], ops := [], listeners := 0 }
  else
    let cb := execCbRun e
    if e.listenerFiresEarly && e.signalPresent then
      { exit := .rejectedWith "Operation cancelled", opsAtSettle := [], ops := cb.1,
        listeners := 1 }
    else
      { exit := cb.2, opsAtSettle := cb.1, ops := cb.1,
        listeners := if e.signalPresent then 1 else 0 }

/-- Environment of one `writeWithWebKitFallback` run.  Boolean fields are the
values of `signal?.aborted` at the strategy's checkpoints (source lines 358,
402 and 445); `listenerFiresEarly` says the abort fires between the
synchronous setup (which attaches both elements and queues the 0 ms trigger
timer of line 444) and that timer's callback, so the abort listener of line
364 rejects the promise while both elements are still attached. -/
structure WebkitEnv where
  abortedAtEntry : Bool
  abortedAfterAttach : Bool
  listenerFiresEarly : Bool
  abortedAtTimer : Bool
  execB : ExecBehavior
  signalPresent : Bool

/-- The 0 ms trigger-timer callback of `writeWithWebKitFallback` (source lines
444-453) and the click handler it drives (lines 410-439): every branch
removes both elements. -/
def webkitTimerOps (e : WebkitEnv) : List DomOp × StratExit :=
  if e.abortedAtTimer then
    ([.remove "textarea", .remove "button"], .rejectedWith "Operation cancelled")
  else
    match e.execB with
    | .returns true => ([.remove "textarea", .remove "button"], .resolvedOk)
    | .returns false =>
      ([.remove "textarea", .remove "button"], .rejectedWith "Button copy method failed")
    | .throws m => ([.remove "textarea", .remove "button"], .rejectedWith m)

/-- Trace of one `writeWithWebKitFallback` run (source lines 354-469): entry
abort check (358), abort listener registration (363-371), synchronous
attachment of both elements (399-400), the post-attach check (402-407), and
the 0 ms trigger timer, which runs even when the abort listener has already
rejected the promise. -/
def writeWithWebKitFallbackTrace (e : WebkitEnv) : StratTrace :=
  if e.abortedAtEntry then
    { exit := .rejectedWith "Operation cancelled", opsAtSettle := [], ops := [], listeners := 0 }
  else
    let setupOps : List DomOp := [.attach "textarea", .attach "button"]
    if e.abortedAfterAttach then
      { exit := .rejectedWith "Operation cancelled",
        opsAtSettle := setupOps ++ [.remove "textarea", .remove "button"],
        ops := setupOps ++ [.remove "textarea", .remove "button"],
        listeners := if e.signalPresent then 1 else 0 }
    else
      let timer := webkitTimerOps e
      if e.listenerFiresEarly && e.signalPresent then
        { exit := .rejectedWith "Operation cancelled",
          opsAtSettle := setupOps,
          ops := setupOps ++ timer.1,
          listeners := 1 }
      else
        { exit := timer.2, opsAtSettle := setupOps ++ timer.1, ops := setupOps ++ timer.1,
          listeners := if e.signalPresent then 1 else 0 }

/-! Abort-listener accounting for the two non-DOM strategies and for the
timeout promise of the coordinator. -/

/-- Environment of one `writeWithClipboardAPI` run (source lines 185-224),
restricted to what determines its abort-listener registrations: the entry
abort value (189), availability of `navigator.clipboard.writeText` (193),
the extension-context detection (198-199) and signal presence (207). -/
structure ClipboardAPIEnv where
  aborted : Bool
  apiAvailable : Bool
  isExtensionContext : Bool
  signalPresent : Bool

/-- Number of abort listeners `writeWithClipboardAPI` registers on the
caller's signal: none when it throws at entry (line 190) or because the API
is absent (line 194), none on the extension direct path (lines 201-205), and
exactly one on the signal-wrapped path (lines 207-219). -/
def writeWithClipboardAPIListeners (e : ClipboardAPIEnv) : Nat :=
  if e.signalPresent && e.aborted then 0
  else if !e.apiAvailable then 0
  else if e.isExtensionContext then 0
  else if e.signalPresent then 1 else 0

/-- Environment of one `writeWithExtensionFallback` run (source lines
474-520), restricted to what determines its abort-listener registrations. -/
structure ExtEnv where
  aborted : Bool
  isExtensionContext : Bool
  signalPresent : Bool

/-- Number of abort listeners `writeWithExtensionFallback` registers on the
caller's signal: none when it throws at entry (line 479) or outside an
extension context (line 488), and exactly one otherwise (lines 492-500). -/
def writeWithExtensionFallbackListeners (e : ExtEnv) : Nat :=
  if e.signalPresent && e.aborted then 0
  else if !e.isExtensionContext then 0
  else if e.signalPresent then 1 else 0

/-- Number of abort listeners the coordinator's timeout promise registers on
the caller's signal per iteration (source lines 103-110): one whenever a
signal was supplied. -/
def raceAbortListeners (signalPresent : Bool) : Nat :=
  if signalPresent then 1 else 0

/-- Lifecycle of a listener registered with `{ once: true }` and never passed
to `removeEventListener` (no call site exists in the source): it stays
subscribed unless the signal fires. -/
def onceListenerStillSubscribed (signalEverFires : Bool) : Bool :=
  !signalEverFires

/-- The loop invocation `lo` embedded in `writeToClipboard` (the `for` loop
of source line 94, entered with the per-call method order and iteration
index 0). -/
def callLoop (text : TextInput) (options : ClipboardOptions) (env : Env) : LoopOut :=
  runMethods (textString text) options.identifier options.logger options.successMessage
    options.signal options.callback env (methodOrder env.isExtensionContext) 0

/-! Lemmas about the method loop, shared by several claims. -/

/-- If the signal is observed aborted at the post-race checkpoint of a started
iteration, the loop returns the cancellation result. -/
theorem runMethods_abort_cancel (text : String) (identifier : Option String)
    (logger : Option LoggerB) (successMessage : Option String) (signal : Option SignalB)
    (callback : Bool) (env : Env) :
    ∀ (ms : List String) (i j : Nat),
      j < (runMethods text identifier logger successMessage signal callback env ms i).attempted.length →
      sigAbortedAfter signal (i + j) = true →
      (runMethods text identifier logger successMessage signal callback env ms i).exit =
        .returned (cancelResult identifier) := by
  intro ms
  induction ms with
  | nil =>
    intro i j hj _
    simp [runMethods] at hj
  | cons name rest ih =>
    intro i j hj hab
    match j, hj, hab with
    | 0, hj, hab =>
      rw [Nat.add_zero] at hab
      rcases hr : env.race i with sc | msg <;>
        simp [runMethods, hr, hab]
    | (k + 1), hj, hab =>
      have hab' : sigAbortedAfter signal (i + 1 + k) = true := by
        rw [show i + 1 + k = i + (k + 1) by omega]
        exact hab
      rcases hr : env.race i with sc | msg
      · by_cases h0 : sigAbortedAfter signal i = true
        · simp [runMethods, hr, h0]
        · cases sc with
          | true =>
            cases hlog : logger with
            | none =>
              simp [runMethods, hr, h0, hlog] at hj <;> omega
            | some lg =>
              by_cases hth : lg.throws = true <;>
                simp [runMethods, hr, h0, hlog, hth] at hj <;> omega
          | false =>
            have hk : k < (runMethods text identifier logger successMessage signal
                callback env rest (i + 1)).attempted.length := by
              simp [runMethods, hr, h0] at hj
              omega
            simp only [runMethods, hr, h0]
            simp only [Bool.false_eq_true, if_false]
            exact ih (i + 1) k hk hab'
      · by_cases h0 : sigAbortedAfter signal i = true
        · simp [runMethods, hr, h0]
        · cases hlog : logger with
          | none =>
            subst hlog
            have hk : k < (runMethods text identifier none successMessage signal
                callback env rest (i + 1)).attempted.length := by
              simp [runMethods, hr, h0] at hj
              omega
            simp only [runMethods, hr, h0]
            simp only [Bool.false_eq_true, if_false]
            exact ih (i + 1) k hk hab'
          | some lg =>
            subst hlog
            by_cases hth : lg.throws = true
            · simp [runMethods, hr, h0, hth] at hj <;> omega
            · have hk : k < (runMethods text identifier (some lg) successMessage signal
                  callback env rest (i + 1)).attempted.length := by
                simp [runMethods, hr, h0, hth] at hj
                omega
              simp only [runMethods, hr, h0, hth]
              simp only [Bool.false_eq_true, if_false]
              exact ih (i + 1) k hk hab'

/-- Once the signal is observed aborted at iteration `j`, the loop starts no
further method: the attempted list ends at `j`. -/
theorem runMethods_abort_stops (text : String) (identifier : Option String)
    (logger : Option LoggerB) (successMessage : Option String) (signal : Option SignalB)
    (callback : Bool) (env : Env) :
    ∀ (ms : List String) (i j : Nat),
      j < (runMethods text identifier logger successMessage signal callback env ms i).attempted.length →
      sigAbortedAfter signal (i + j) = true →
      (runMethods text identifier logger successMessage signal callback env ms i).attempted.length =
        j + 1 := by
  intro ms
  induction ms with
  | nil =>
    intro i j hj _
    simp [runMethods] at hj
  | cons name rest ih =>
    intro i j hj hab
    match j, hj, hab with
    | 0, hj, hab =>
      rw [Nat.add_zero] at hab
      rcases hr : env.race i with sc | msg <;>
        simp [runMethods, hr, hab]
    | (k + 1), hj, hab =>
      have hab' : sigAbortedAfter signal (i + 1 + k) = true := by
        rw [show i + 1 + k = i + (k + 1) by omega]
        exact hab
      rcases hr : env.race i with sc | msg
      · by_cases h0 : sigAbortedAfter signal i = true
        · simp [runMethods, hr, h0] at hj <;> omega
        · cases sc with
          | true =>
            cases hlog : logger with
            | none =>
              simp [runMethods, hr, h0, hlog] at hj <;> omega
            | some lg =>
              by_cases hth : lg.throws = true <;>
                simp [runMethods, hr, h0, hlog, hth] at hj <;> omega
          | false =>
            have hk : k < (runMethods text identifier logger successMessage signal
                callback env rest (i + 1)).attempted.length := by
              simp [runMethods, hr, h0] at hj
              omega
            have := ih (i + 1) k hk hab'
            simp [runMethods, hr, h0]
            omega
      · by_cases h0 : sigAbortedAfter signal i = true
        · simp [runMethods, hr, h0] at hj <;> omega
        · cases hlog : logger with
          | none =>
            subst hlog
            have hk : k < (runMethods text identifier none successMessage signal
                callback env rest (i + 1)).attempted.length := by
              simp [runMethods, hr, h0] at hj
              omega
            have := ih (i + 1) k hk hab'
            simp [runMethods, hr, h0]
            omega
          | some lg =>
            subst hlog
            by_cases hth : lg.throws = true
            · simp [runMethods, hr, h0, hth] at hj <;> omega
            · have hk : k < (runMethods text identifier (some lg) successMessage signal
                  callback env rest (i + 1)).attempted.length := by
                simp [runMethods, hr, h0, hth] at hj
                omega
              have := ih (i + 1) k hk hab'
              simp [runMethods, hr, h0, hth]
              omega

/-- With a callback supplied, an early-returning loop queues exactly one
callback microtask carrying the returned result. -/
theorem runMethods_returned_microtasks (text : String) (identifier : Option String)
    (logger : Option LoggerB) (successMessage : Option String) (signal : Option SignalB)
    (env : Env) :
    ∀ (ms : List String) (i : Nat) (r : ClipboardResult),
      (runMethods text identifier logger successMessage signal true env ms i).exit =
        .returned r →
      (runMethods text identifier logger successMessage signal true env ms i).microtasks =
        [r] := by
  intro ms
  induction ms with
  | nil =>
    intro i r hex
    simp [runMethods] at hex
  | cons name rest ih =>
    intro i r hex
    rcases hr : env.race i with sc | msg
    · by_cases h0 : sigAbortedAfter signal i = true
      · simp [runMethods, hr, h0] at hex ⊢
        simp [hex]
      · cases sc with
        | true =>
          cases hlog : logger with
          | none =>
            subst hlog
            simp [runMethods, hr, h0] at hex ⊢
            simp [hex]
          | some lg =>
            subst hlog
            by_cases hth : lg.throws = true
            · simp [runMethods, hr, h0, hth] at hex
            · simp [runMethods, hr, h0, hth] at hex ⊢
              simp [hex]
        | false =>
          simp only [runMethods, hr, h0] at hex ⊢
          simp only [Bool.false_eq_true, if_false] at hex ⊢
          exact ih (i + 1) r hex
    · by_cases h0 : sigAbortedAfter signal i = true
      · simp [runMethods, hr, h0] at hex ⊢
        simp [hex]
      · cases hlog : logger with
        | none =>
          subst hlog
          simp only [runMethods, hr, h0] at hex ⊢
          exact ih (i + 1) r hex
        | some lg =>
          subst hlog
          by_cases hth : lg.throws = true
          · simp [runMethods, hr, h0, hth] at hex
          · simp only [runMethods, hr, h0, hth] at hex ⊢
            simp only [Bool.false_eq_true, if_false] at hex ⊢
            exact ih (i + 1) r hex

/-- A loop that exhausts the method list queues no callback microtask
itself. -/
theorem runMethods_exhausted_microtasks (text : String) (identifier : Option String)
    (logger : Option LoggerB) (successMessage : Option String) (signal : Option SignalB)
    (callback : Bool) (env : Env) :
    ∀ (ms : List String) (i : Nat),
      (runMethods text identifier logger successMessage signal callback env ms i).exit =
        .exhausted →
      (runMethods text identifier logger successMessage signal callback env ms i).microtasks =
        [] := by
  intro ms
  induction ms with
  | nil =>
    intro i _
    simp [runMethods]
  | cons name rest ih =>
    intro i hex
    rcases hr : env.race i with sc | msg
    · by_cases h0 : sigAbortedAfter signal i = true
      · simp [runMethods, hr, h0] at hex
      · cases sc with
        | true =>
          cases hlog : logger with
          | none =>
            subst hlog
            simp [runMethods, hr, h0] at hex
          | some lg =>
            subst hlog
            by_cases hth : lg.throws = true
            · simp [runMethods, hr, h0, hth] at hex
            · simp [runMethods, hr, h0, hth] at hex
        | false =>
          simp only [runMethods, hr, h0] at hex ⊢
          simp only [Bool.false_eq_true, if_false] at hex ⊢
          exact ih (i + 1) hex
    · by_cases h0 : sigAbortedAfter signal i = true
      · simp [runMethods, hr, h0] at hex
      · cases hlog : logger with
        | none =>
          subst hlog
          simp only [runMethods, hr, h0] at hex ⊢
          exact ih (i + 1) hex
        | some lg =>
          subst hlog
          by_cases hth : lg.throws = true
          · simp [runMethods, hr, h0, hth] at hex
          · simp only [runMethods, hr, h0, hth] at hex ⊢
            simp only [Bool.false_eq_true, if_false] at hex ⊢
            exact ih (i + 1) hex

/-- A loop run that returns a cancellation result emitted no logger entry of
its own terminal branch: every entry it logged is a per-method warning. -/
theorem runMethods_cancelled_logs_warning (text : String) (identifier : Option String)
    (logger : Option LoggerB) (successMessage : Option String) (signal : Option SignalB)
    (callback : Bool) (env : Env) :
    ∀ (ms : List String) (i : Nat) (r : ClipboardResult),
      (runMethods text identifier logger successMessage signal callback env ms i).exit =
        .returned r →
      r.cancelled = some true →
      ∀ e ∈ (runMethods text identifier logger successMessage signal callback env ms i).logs,
        e.level = .warning := by
  intro ms
  induction ms with
  | nil =>
    intro i r hex
    simp [runMethods] at hex
  | cons name rest ih =>
    intro i r hex hcan
    rcases hr : env.race i with sc | msg
    · by_cases h0 : sigAbortedAfter signal i = true
      · simp [runMethods, hr, h0]
      · cases sc with
        | true =>
          cases hlog : logger with
          | none =>
            subst hlog
            simp [runMethods, hr, h0] at hex
            rw [← hex] at hcan
            simp at hcan
          | some lg =>
            subst hlog
            by_cases hth : lg.throws = true
            · simp [runMethods, hr, h0, hth] at hex
            · simp [runMethods, hr, h0, hth] at hex
              rw [← hex] at hcan
              simp at hcan
        | false =>
          simp only [runMethods, hr, h0] at hex ⊢
          simp only [Bool.false_eq_true, if_false] at hex ⊢
          exact ih (i + 1) r hex hcan
    · by_cases h0 : sigAbortedAfter signal i = true
      · simp [runMethods, hr, h0]
      · cases hlog : logger with
        | none =>
          subst hlog
          simp only [runMethods, hr, h0] at hex ⊢
          exact ih (i + 1) r hex hcan
        | some lg =>
          subst hlog
          by_cases hth : lg.throws = true
          · simp [runMethods, hr, h0, hth] at hex
          · simp only [runMethods, hr, h0, hth] at hex ⊢
            simp only [Bool.false_eq_true, if_false] at hex ⊢
            intro e he
            rcases List.mem_cons.mp he with h | h
            · rw [h]
            · exact ih (i + 1) r hex hcan e h

/-- With a supplied non-throwing logger, a loop run that returns a
non-cancellation result has logged at least one entry. -/
theorem runMethods_returned_logs_ne (text : String) (identifier : Option String)
    (lg : LoggerB) (successMessage : Option String) (signal : Option SignalB)
    (callback : Bool) (env : Env) (hth : lg.throws = false) :
    ∀ (ms : List String) (i : Nat) (r : ClipboardResult),
      (runMethods text identifier (some lg) successMessage signal callback env ms i).exit =
        .returned r →
      r.cancelled = none →
      (runMethods text identifier (some lg) successMessage signal callback env ms i).logs ≠
        [] := by
  intro ms
  induction ms with
  | nil =>
    intro i r hex
    simp [runMethods] at hex
  | cons name rest ih =>
    intro i r hex hcan
    rcases hr : env.race i with sc | msg
    · by_cases h0 : sigAbortedAfter signal i = true
      · simp [runMethods, hr, h0] at hex
        rw [← hex] at hcan
        simp [cancelResult] at hcan
      · cases sc with
        | true =>
          simp [runMethods, hr, h0, hth]
        | false =>
          simp only [runMethods, hr, h0] at hex ⊢
          simp only [Bool.false_eq_true, if_false] at hex ⊢
          exact ih (i + 1) r hex hcan
    · by_cases h0 : sigAbortedAfter signal i = true
      · simp [runMethods, hr, h0] at hex
        rw [← hex] at hcan
        simp [cancelResult] at hcan
      · simp [runMethods, hr, h0, hth]

/-- The loop's exit is independent of whether a (non-throwing) logger or a
callback is supplied. -/
theorem runMethods_exit_collab_independent (text : String) (identifier : Option String)
    (successMessage : Option String) (signal : Option SignalB) (env : Env)
    (m : String) (cb cb' : Bool) :
    ∀ (ms : List String) (i : Nat),
      (runMethods text identifier (some ⟨false, m⟩) successMessage signal cb env ms i).exit =
      (runMethods text identifier none successMessage signal cb' env ms i).exit := by
  intro ms
  induction ms with
  | nil =>
    intro i
    rfl
  | cons name rest ih =>
    intro i
    rcases hr : env.race i with sc | msg
    · by_cases h0 : sigAbortedAfter signal i = true
      · simp [runMethods, hr, h0]
      · cases sc with
        | true =>
          simp [runMethods, hr, h0]
        | false =>
          simp only [runMethods, hr, h0]
          simp only [Bool.false_eq_true, if_false]
          exact ih (i + 1)
    · by_cases h0 : sigAbortedAfter signal i = true
      · simp [runMethods, hr, h0]
      · simp only [runMethods, hr, h0]
        simp only [Bool.false_eq_true, if_false]
        exact ih (i + 1)

/-- The methods whose attempt was invoked form a prefix of the supplied
method list. -/
theorem runMethods_attempted_take (text : String) (identifier : Option String)
    (logger : Option LoggerB) (successMessage : Option String) (signal : Option SignalB)
    (callback : Bool) (env : Env) :
    ∀ (ms : List String) (i : Nat), ∃ k,
      (runMethods text identifier logger successMessage signal callback env ms i).attempted =
        ms.take k := by
  intro ms
  induction ms with
  | nil =>
    intro i
    exact ⟨0, rfl⟩
  | cons name rest ih =>
    intro i
    rcases hr : env.race i with sc | msg
    · by_cases h0 : sigAbortedAfter signal i = true
      · exact ⟨1, by simp [runMethods, hr, h0]⟩
      · cases sc with
        | true =>
          cases hlog : logger with
          | none =>
            exact ⟨1, by simp [runMethods, hr, h0, hlog]⟩
          | some lg =>
            by_cases hth : lg.throws = true
            · exact ⟨1, by simp [runMethods, hr, h0, hlog, hth]⟩
            · exact ⟨1, by simp [runMethods, hr, h0, hlog, hth]⟩
        | false =>
          rcases ih (i + 1) with ⟨k, hk⟩
          refine ⟨k + 1, ?_⟩
          simp only [runMethods, hr, h0]
          simp only [Bool.false_eq_true, if_false]
          simp [hk]
    · by_cases h0 : sigAbortedAfter signal i = true
      · exact ⟨1, by simp [runMethods, hr, h0]⟩
      · cases hlog : logger with
        | none =>
          subst hlog
          rcases ih (i + 1) with ⟨k, hk⟩
          refine ⟨k + 1, ?_⟩
          simp only [runMethods, hr, h0]
          simp [hk]
        | some lg =>
          subst hlog
          by_cases hth : lg.throws = true
          · exact ⟨1, by simp [runMethods, hr, h0, hth]⟩
          · rcases ih (i + 1) with ⟨k, hk⟩
            refine ⟨k + 1, ?_⟩
            simp only [runMethods, hr, h0, hth]
            simp only [Bool.false_eq_true, if_false]
            simp [hk]

/-- C1: when the cancellation signal is observed aborted at any checkpoint
(the entry check, or the post-race checkpoint of any started iteration),
`writeToClipboard` reports the cancellation result — success is `false` and
`cancelled` is `true` — and never success, and starts no further method: (a)
an entry-observed abort yields the cancellation result with no method
attempted; (b) a successful outcome implies no checkpoint ever observed the
abort; (c) a checkpoint-observed abort is only ever at the last started
iteration; (d) a checkpoint-observed abort forces the cancellation result,
even if the method's race had resolved successfully. -/
theorem writeToClipboard_cancellation_wins (text : TextInput) (options : ClipboardOptions)
    (env : Env) (s : SignalB) (hsig : options.signal = some s) :
    (s.alreadyAborted = true →
      (writeToClipboard text options env).outcome = .ok (cancelResult options.identifier) ∧
      (writeToClipboard text options env).attempted = []) ∧
    (∀ r, (writeToClipboard text options env).outcome = .ok r → r.success = true →
      s.alreadyAborted = false ∧
      ∀ j, j < (writeToClipboard text options env).attempted.length →
        s.abortedAfter j = false) ∧
    (∀ j, j + 1 < (writeToClipboard text options env).attempted.length →
      s.abortedAfter j = false) ∧
    (∀ j, j < (writeToClipboard text options env).attempted.length →
      s.abortedAfter j = true →
      (writeToClipboard text options env).outcome = .ok (cancelResult options.identifier)) := by
  by_cases h0 : sigAborted0 options.signal = true
  · have hA : s.alreadyAborted = true := by
      rw [hsig] at h0
      exact h0
    refine ⟨fun _ => ⟨by simp [writeToClipboard, h0], by simp [writeToClipboard, h0]⟩,
      ?_, ?_, ?_⟩
    · intro r hr hs
      simp [writeToClipboard, h0] at hr
      rw [← hr] at hs
      simp [cancelResult] at hs
    · intro j hj
      simp [writeToClipboard, h0] at hj
    · intro j hj
      simp [writeToClipboard, h0] at hj
  · have hA : s.alreadyAborted = false := by
      rw [hsig] at h0
      simpa [sigAborted0] using h0
    by_cases hv : isInvalidText text = true
    · refine ⟨fun hAA => absurd hAA (by simp [hA]), ?_, ?_, ?_⟩
      · intro r hr hs
        rcases hl : options.logger with _ | lg
        · simp [writeToClipboard, h0, hv, hl] at hr
          rw [← hr] at hs
          simp [invalidResult] at hs
        · by_cases hth : lg.throws = true
          · simp [writeToClipboard, h0, hv, hl, hth] at hr
          · simp [writeToClipboard, h0, hv, hl, hth] at hr
            rw [← hr] at hs
            simp [invalidResult] at hs
      · intro j hj
        rcases hl : options.logger with _ | lg
        · simp [writeToClipboard, h0, hv, hl] at hj
        · by_cases hth : lg.throws = true
          · simp [writeToClipboard, h0, hv, hl, hth] at hj
          · simp [writeToClipboard, h0, hv, hl, hth] at hj
      · intro j hj
        rcases hl : options.logger with _ | lg
        · simp [writeToClipboard, h0, hv, hl] at hj
        · by_cases hth : lg.throws = true
          · simp [writeToClipboard, h0, hv, hl, hth] at hj
          · simp [writeToClipboard, h0, hv, hl, hth] at hj
    · have hAtt : (writeToClipboard text options env).attempted =
          (runMethods (textString text) options.identifier options.logger
            options.successMessage options.signal options.callback env
            (methodOrder env.isExtensionContext) 0).attempted := by
        simp only [writeToClipboard, h0, hv]
        rcases hlo : (runMethods (textString text) options.identifier options.logger
            options.successMessage options.signal options.callback env
            (methodOrder env.isExtensionContext) 0).exit with r' | _ | m
        · simp [h0, hv, hlo]
        · rcases hl : options.logger with _ | lg
          · simp [h0, hv, hlo, hl]
          · by_cases hth : lg.throws = true
            · simp [h0, hv, hlo, hl, hth]
            · simp [h0, hv, hlo, hl, hth]
        · simp [h0, hv, hlo]
      have habconv : ∀ j, s.abortedAfter j = true →
          sigAbortedAfter options.signal (0 + j) = true := by
        intro j hbj
        rw [hsig]
        simpa [sigAbortedAfter] using hbj
      refine ⟨fun hAA => absurd hAA (by simp [hA]), ?_, ?_, ?_⟩
      · intro r hr hs
        refine ⟨hA, ?_⟩
        intro j hj
        rw [hAtt] at hj
        cases hbj : s.abortedAfter j with
        | false => rfl
        | true =>
          exfalso
          have hcancel := runMethods_abort_cancel (textString text) options.identifier
            options.logger options.successMessage options.signal options.callback env
            (methodOrder env.isExtensionContext) 0 j hj (habconv j hbj)
          simp only [writeToClipboard, h0, hv, hcancel] at hr
          simp at hr
          rw [← hr] at hs
          simp [cancelResult] at hs
      · intro j hj
        rw [hAtt] at hj
        cases hbj : s.abortedAfter j with
        | false => rfl
        | true =>
          exfalso
          have hstop := runMethods_abort_stops (textString text) options.identifier
            options.logger options.successMessage options.signal options.callback env
            (methodOrder env.isExtensionContext) 0 j (by omega) (habconv j hbj)
          omega
      · intro j hj hbj
        rw [hAtt] at hj
        have hcancel := runMethods_abort_cancel (textString text) options.identifier
          options.logger options.successMessage options.signal options.callback env
          (methodOrder env.isExtensionContext) 0 j hj (habconv j hbj)
        simp only [writeToClipboard, h0, hv, hcancel]
        simp

/-- C1 witness: a concrete run in which the first method's race resolves
successfully but the signal is observed aborted at the post-race checkpoint;
the call reports cancellation. -/
theorem writeToClipboard_cancellation_wins_witness :
    (writeToClipboard (.str "payload")
      { identifier := some "op-1", signal := some ⟨false, fun _ => true⟩ }
      { isExtensionContext := false, race := fun _ => .resolved true }).outcome =
      .ok (cancelResult (some "op-1")) :=
  (writeToClipboard_cancellation_wins (.str "payload")
    { identifier := some "op-1", signal := some ⟨false, fun _ => true⟩ }
    { isExtensionContext := false, race := fun _ => .resolved true }
    ⟨false, fun _ => true⟩ rfl).2.2.2 0 (by decide) rfl

/-- C2: when the signal is already aborted at call time, `writeToClipboard`
returns the cancellation result (success `false`, `cancelled` `true`, error
text containing "cancelled") and invokes no strategy — and this holds for
every text, including invalid ones, because the cancellation check precedes
validation. -/
theorem writeToClipboard_preaborted_short_circuit (text : TextInput)
    (options : ClipboardOptions) (env : Env)
    (h : sigAborted0 options.signal = true) :
    (writeToClipboard text options env).outcome = .ok (cancelResult options.identifier) ∧
    (cancelResult options.identifier).success = false ∧
    (cancelResult options.identifier).cancelled = some true ∧
    (cancelResult options.identifier).error = some ("Operation " ++ "cancelled") ∧
    (writeToClipboard text options env).attempted = [] := by
  refine ⟨by simp [writeToClipboard, h], rfl, rfl, rfl, by simp [writeToClipboard, h]⟩

/-- C2 witness: a concrete call with an already-aborted signal and invalid
(empty) text returns the cancellation result and attempts nothing. -/
theorem writeToClipboard_preaborted_short_circuit_witness :
    (writeToClipboard (.str "")
      { identifier := some "op-2", signal := some ⟨true, fun _ => true⟩ }
      { isExtensionContext := false, race := fun _ => .rejected "boom" }).outcome =
      .ok (cancelResult (some "op-2")) ∧
    (writeToClipboard (.str "")
      { identifier := some "op-2", signal := some ⟨true, fun _ => true⟩ }
      { isExtensionContext := false, race := fun _ => .rejected "boom" }).attempted = [] :=
  ⟨(writeToClipboard_preaborted_short_circuit (.str "")
      { identifier := some "op-2", signal := some ⟨true, fun _ => true⟩ }
      { isExtensionContext := false, race := fun _ => .rejected "boom" } rfl).1,
   (writeToClipboard_preaborted_short_circuit (.str "")
      { identifier := some "op-2", signal := some ⟨true, fun _ => true⟩ }
      { isExtensionContext := false, race := fun _ => .rejected "boom" } rfl).2.2.2.2⟩

/-- C3 counterexample: with empty text but an already-aborted signal, the
call returns the cancellation result — whose error is "Operation cancelled",
not the invalid-input message — and the supplied logger is never invoked, so
the claim's "regardless of other options" fails. -/
theorem writeToClipboard_invalid_text_preaborted_cex :
    (writeToClipboard (.str "")
      { signal := some ⟨true, fun _ => true⟩, logger := some ⟨false, "lg"⟩ }
      { isExtensionContext := false, race := fun _ => .rejected "boom" }).outcome =
      .ok { success := false, error := some "Operation cancelled", cancelled := some true } ∧
    (writeToClipboard (.str "")
      { signal := some ⟨true, fun _ => true⟩, logger := some ⟨false, "lg"⟩ }
      { isExtensionContext := false, race := fun _ => .rejected "boom" }).logs = [] ∧
    "Operation cancelled" ≠ invalidTextError := by
  refine ⟨by decide, by decide, by decide⟩

/-- C3 amended: for every empty or non-string text, provided the signal is
not already aborted at call time, the call returns success `false` with the
invalid-input error, attempts no strategy, and a supplied logger is invoked
exactly once, at error level, with the invalid-input message (when the
logger does not itself throw, the result is returned; a throwing logger is
still invoked first). -/
theorem writeToClipboard_invalid_text_rejected (text : TextInput)
    (options : ClipboardOptions) (env : Env)
    (hv : isInvalidText text = true)
    (h0 : sigAborted0 options.signal = false) :
    (writeToClipboard text options env).attempted = [] ∧
    (writeToClipboard text options env).logs =
      (match options.logger with
       | none => []
       | some _ => [{ level := .error, message := invalidTextError }]) ∧
    (∀ lg, options.logger = some lg → lg.throws = false →
      (writeToClipboard text options env).outcome = .ok (invalidResult options.identifier)) ∧
    (options.logger = none →
      (writeToClipboard text options env).outcome = .ok (invalidResult options.identifier)) := by
  have h0' : ¬sigAborted0 options.signal = true := by
    simp [h0]
  rcases hl : options.logger with _ | lg
  · refine ⟨?_, ?_, ?_, ?_⟩
    · simp [writeToClipboard, h0', hv, hl]
    · simp [writeToClipboard, h0', hv, hl]
    · intro lg hlg
      cases hlg
    · intro _
      simp [writeToClipboard, h0', hv, hl]
  · by_cases hth : lg.throws = true
    · refine ⟨?_, ?_, ?_, ?_⟩
      · simp [writeToClipboard, h0', hv, hl, hth]
      · simp [writeToClipboard, h0', hv, hl, hth]
      · intro lg' hlg' hth'
        cases hlg'
        rw [hth] at hth'
        simp at hth'
      · intro hnone
        cases hnone
    · refine ⟨?_, ?_, ?_, ?_⟩
      · simp [writeToClipboard, h0', hv, hl, hth]
      · simp [writeToClipboard, h0', hv, hl, hth]
      · intro lg' hlg' _
        simp [writeToClipboard, h0', hv, hl, hth]
      · intro hnone
        cases hnone

/-- C3 amended witness: a concrete call with empty text, a non-throwing
logger and no signal: one error-level log entry, no attempts, and the
invalid-input result. -/
theorem writeToClipboard_invalid_text_rejected_witness :
    (writeToClipboard (.str "") { logger := some ⟨false, "lg"⟩ }
      { isExtensionContext := false, race := fun _ => .resolved true }).logs =
      [{ level := .error, message := invalidTextError }] ∧
    (writeToClipboard (.str "") { logger := some ⟨false, "lg"⟩ }
      { isExtensionContext := false, race := fun _ => .resolved true }).outcome =
      .ok (invalidResult none) :=
  ⟨(writeToClipboard_invalid_text_rejected (.str "") { logger := some ⟨false, "lg"⟩ }
      { isExtensionContext := false, race := fun _ => .resolved true } rfl rfl).2.1,
   (writeToClipboard_invalid_text_rejected (.str "") { logger := some ⟨false, "lg"⟩ }
      { isExtensionContext := false, race := fun _ => .resolved true } rfl rfl).2.2.1
      ⟨false, "lg"⟩ rfl rfl⟩

/-! Shape of the call output in each terminal case of the valid-text path. -/

/-- When the loop returns early, the call's output is the loop's output with
the returned result as outcome. -/
theorem writeToClipboard_returned_eq (text : TextInput) (options : ClipboardOptions)
    (env : Env) (r : ClipboardResult)
    (h0 : sigAborted0 options.signal = false) (hv : isInvalidText text = false)
    (hex : (callLoop text options env).exit = .returned r) :
    writeToClipboard text options env =
      { outcome := .ok r, logs := (callLoop text options env).logs,
        microtasks := (callLoop text options env).microtasks,
        attempted := (callLoop text options env).attempted } := by
  rw [callLoop] at hex
  simp [writeToClipboard, callLoop, h0, hv, hex]

/-- When the loop propagates a thrown error, so does the call. -/
theorem writeToClipboard_threw_eq (text : TextInput) (options : ClipboardOptions)
    (env : Env) (m : String)
    (h0 : sigAborted0 options.signal = false) (hv : isInvalidText text = false)
    (hex : (callLoop text options env).exit = .threw m) :
    writeToClipboard text options env =
      { outcome := .error m, logs := (callLoop text options env).logs,
        microtasks := (callLoop text options env).microtasks,
        attempted := (callLoop text options env).attempted } := by
  rw [callLoop] at hex
  simp [writeToClipboard, callLoop, h0, hv, hex]

/-- Exhaustion without a logger: the exhaustion result is returned and the
callback (when present) is queued after the loop's microtasks. -/
theorem writeToClipboard_exhausted_none_eq (text : TextInput) (options : ClipboardOptions)
    (env : Env)
    (h0 : sigAborted0 options.signal = false) (hv : isInvalidText text = false)
    (hl : options.logger = none)
    (hex : (callLoop text options env).exit = .exhausted) :
    writeToClipboard text options env =
      { outcome := .ok (exhaustedResult options.errorMessage options.identifier),
        logs := (callLoop text options env).logs,
        microtasks := (callLoop text options env).microtasks ++
          (if options.callback then
            [exhaustedResult options.errorMessage options.identifier] else []),
        attempted := (callLoop text options env).attempted } := by
  rw [callLoop, hl] at hex
  simp [writeToClipboard, callLoop, h0, hv, hex, hl]

/-- Exhaustion with a non-throwing logger: as without one, plus a final
error-level log entry. -/
theorem writeToClipboard_exhausted_logger_eq (text : TextInput) (options : ClipboardOptions)
    (env : Env) (lg : LoggerB)
    (h0 : sigAborted0 options.signal = false) (hv : isInvalidText text = false)
    (hl : options.logger = some lg) (hth : lg.throws = false)
    (hex : (callLoop text options env).exit = .exhausted) :
    writeToClipboard text options env =
      { outcome := .ok (exhaustedResult options.errorMessage options.identifier),
        logs := (callLoop text options env).logs ++
          [{ level := .error, message := options.errorMessage.getD defaultExhaustedError }],
        microtasks := (callLoop text options env).microtasks ++
          (if options.callback then
            [exhaustedResult options.errorMessage options.identifier] else []),
        attempted := (callLoop text options env).attempted } := by
  rw [callLoop, hl] at hex
  simp [writeToClipboard, callLoop, h0, hv, hex, hl, hth]

/-- Exhaustion with a throwing logger: the exhaustion log entry is recorded
and the thrown error propagates; no callback is queued by this branch. -/
theorem writeToClipboard_exhausted_logger_throws_eq (text : TextInput)
    (options : ClipboardOptions) (env : Env) (lg : LoggerB)
    (h0 : sigAborted0 options.signal = false) (hv : isInvalidText text = false)
    (hl : options.logger = some lg) (hth : lg.throws = true)
    (hex : (callLoop text options env).exit = .exhausted) :
    writeToClipboard text options env =
      { outcome := .error lg.throwMsg,
        logs := (callLoop text options env).logs ++
          [{ level := .error, message := options.errorMessage.getD defaultExhaustedError }],
        microtasks := (callLoop text options env).microtasks,
        attempted := (callLoop text options env).attempted } := by
  rw [callLoop, hl] at hex
  simp [writeToClipboard, callLoop, h0, hv, hex, hl, hth]

/-- C4: the ordered method list is a pure function of the extension-context
detection: with the privileged channel present the extension strategy is
second, immediately after the modern-API strategy and before the legacy
(`execCommand`) and gesture-simulated (`webkit-fallback`) strategies; without
it the extension strategy is last, after all three browser-native strategies;
and every call attempts methods along a prefix of exactly this list. -/
theorem methodOrder_extension_promotion :
    ((methodOrder true).indexOf "navigator.clipboard" = 0 ∧
      (methodOrder true).indexOf "extension-fallback" = 1 ∧
      (methodOrder true).indexOf "extension-fallback" <
        (methodOrder true).indexOf "execCommand" ∧
      (methodOrder true).indexOf "extension-fallback" <
        (methodOrder true).indexOf "webkit-fallback") ∧
    ((methodOrder false).indexOf "navigator.clipboard" = 0 ∧
      (methodOrder false).indexOf "extension-fallback" = 3 ∧
      (methodOrder false).length = 4 ∧
      (methodOrder false).indexOf "execCommand" <
        (methodOrder false).indexOf "extension-fallback" ∧
      (methodOrder false).indexOf "webkit-fallback" <
        (methodOrder false).indexOf "extension-fallback") ∧
    ∀ (text : TextInput) (options : ClipboardOptions) (env : Env), ∃ k,
      (writeToClipboard text options env).attempted =
        (methodOrder env.isExtensionContext).take k := by
  refine ⟨by decide, by decide, ?_⟩
  intro text options env
  by_cases h0 : sigAborted0 options.signal = true
  · exact ⟨0, by simp [writeToClipboard, h0]⟩
  · by_cases hv : isInvalidText text = true
    · rcases hl : options.logger with _ | lg
      · exact ⟨0, by simp [writeToClipboard, h0, hv, hl]⟩
      · by_cases hth : lg.throws = true
        · exact ⟨0, by simp [writeToClipboard, h0, hv, hl, hth]⟩
        · exact ⟨0, by simp [writeToClipboard, h0, hv, hl, hth]⟩
    · have h0' : sigAborted0 options.signal = false := by
        simpa using h0
      have hv' : isInvalidText text = false := by
        simpa using hv
      rcases runMethods_attempted_take (textString text) options.identifier options.logger
        options.successMessage options.signal options.callback env
        (methodOrder env.isExtensionContext) 0 with ⟨k, hk⟩
      refine ⟨k, ?_⟩
      rcases hlo : (callLoop text options env).exit with r' | _ | m
      · rw [writeToClipboard_returned_eq text options env r' h0' hv' hlo]
        exact hk
      · rcases hl : options.logger with _ | lg
        · rw [writeToClipboard_exhausted_none_eq text options env h0' hv' hl hlo]
          exact hk
        · by_cases hth : lg.throws = true
          · rw [writeToClipboard_exhausted_logger_throws_eq text options env lg h0' hv' hl hth hlo]
            exact hk
          · have hth' : lg.throws = false := by
              simpa using hth
            rw [writeToClipboard_exhausted_logger_eq text options env lg h0' hv' hl hth' hlo]
            exact hk
      · rw [writeToClipboard_threw_eq text options env m h0' hv' hlo]
        exact hk

/-- C5: whenever a completion callback is supplied and the call returns a
result (any terminal branch: success, validation failure, exhaustion or
cancellation), exactly one callback microtask is queued, carrying exactly the
returned result.  Asynchrony is structural: queued microtasks run only after
the call has returned. -/
theorem writeToClipboard_callback_once_with_result (text : TextInput)
    (options : ClipboardOptions) (env : Env) (r : ClipboardResult)
    (hcb : options.callback = true)
    (hr : (writeToClipboard text options env).outcome = .ok r) :
    (writeToClipboard text options env).microtasks = [r] := by
  by_cases h0 : sigAborted0 options.signal = true
  · simp [writeToClipboard, h0, hcb] at hr ⊢
    simp [hr]
  · have h0' : sigAborted0 options.signal = false := by
      simpa using h0
    by_cases hv : isInvalidText text = true
    · rcases hl : options.logger with _ | lg
      · simp [writeToClipboard, h0, hv, hl, hcb] at hr ⊢
        simp [hr]
      · by_cases hth : lg.throws = true
        · simp [writeToClipboard, h0, hv, hl, hth] at hr
        · simp [writeToClipboard, h0, hv, hl, hth, hcb] at hr ⊢
          simp [hr]
    · have hv' : isInvalidText text = false := by
        simpa using hv
      rcases hlo : (callLoop text options env).exit with r' | _ | m
      · rw [writeToClipboard_returned_eq text options env r' h0' hv' hlo] at hr ⊢
        simp at hr ⊢
        have hlo2 : (runMethods (textString text) options.identifier options.logger
            options.successMessage options.signal true env
            (methodOrder env.isExtensionContext) 0).exit = .returned r' := by
          rw [← hcb]
          exact hlo
        have hm := runMethods_returned_microtasks (textString text) options.identifier
          options.logger options.successMessage options.signal env
          (methodOrder env.isExtensionContext) 0 r' hlo2
        rw [← hcb] at hm
        rw [show (callLoop text options env).microtasks =
          (runMethods (textString text) options.identifier options.logger
            options.successMessage options.signal options.callback env
            (methodOrder env.isExtensionContext) 0).microtasks from rfl]
        rw [hm, hr]
      · have hmts := runMethods_exhausted_microtasks (textString text) options.identifier
          options.logger options.successMessage options.signal options.callback env
          (methodOrder env.isExtensionContext) 0 hlo
        rcases hl : options.logger with _ | lg
        · rw [writeToClipboard_exhausted_none_eq text options env h0' hv' hl hlo] at hr ⊢
          simp at hr ⊢
          rw [show (callLoop text options env).microtasks =
            (runMethods (textString text) options.identifier options.logger
              options.successMessage options.signal options.callback env
              (methodOrder env.isExtensionContext) 0).microtasks from rfl]
          rw [hmts]
          simp [hcb, hr]
        · by_cases hth : lg.throws = true
          · rw [writeToClipboard_exhausted_logger_throws_eq text options env lg
              h0' hv' hl hth hlo] at hr
            simp at hr
          · have hth' : lg.throws = false := by
              simpa using hth
            rw [writeToClipboard_exhausted_logger_eq text options env lg h0' hv' hl hth' hlo]
              at hr ⊢
            simp at hr ⊢
            rw [show (callLoop text options env).microtasks =
              (runMethods (textString text) options.identifier options.logger
                options.successMessage options.signal options.callback env
                (methodOrder env.isExtensionContext) 0).microtasks from rfl]
            rw [hmts]
            simp [hcb, hr]
      · rw [writeToClipboard_threw_eq text options env m h0' hv' hlo] at hr
        simp at hr

/-- C5 witness: a concrete successful call with a callback queues exactly the
returned result, once. -/
theorem writeToClipboard_callback_once_with_result_witness :
    (writeToClipboard (.str "hello") { callback := true }
      { isExtensionContext := false, race := fun _ => .resolved true }).microtasks =
      [{ success := true, method := some "navigator.clipboard" }] :=
  writeToClipboard_callback_once_with_result (.str "hello") { callback := true }
    { isExtensionContext := false, race := fun _ => .resolved true }
    { success := true, method := some "navigator.clipboard" } rfl (by decide)

/-- C6 counterexample: with a supplied (non-throwing) logger and an
already-aborted signal, the call terminates with the cancellation outcome yet
the logger is never invoked — refuting "the logger is invoked on every
terminal outcome, cancellation included". -/
theorem writeToClipboard_logger_skipped_on_cancel_cex :
    (writeToClipboard (.str "hello")
      { logger := some ⟨false, "lg"⟩, signal := some ⟨true, fun _ => true⟩ }
      { isExtensionContext := false, race := fun _ => .resolved true }).outcome =
      .ok { success := false, error := some "Operation cancelled", cancelled := some true } ∧
    (writeToClipboard (.str "hello")
      { logger := some ⟨false, "lg"⟩, signal := some ⟨true, fun _ => true⟩ }
      { isExtensionContext := false, race := fun _ => .resolved true }).logs = [] :=
  ⟨by decide, by decide⟩

/-- C6 amended: with a supplied non-throwing logger, every terminal outcome
other than cancellation (success, exhaustion, validation failure) invokes the
logger synchronously before the call returns; on cancellation outcomes the
terminal branch never invokes it — any recorded entries are per-method
warnings from earlier failed attempts. -/
theorem writeToClipboard_logger_on_terminal_outcomes (text : TextInput)
    (options : ClipboardOptions) (env : Env) (lg : LoggerB) (r : ClipboardResult)
    (hl : options.logger = some lg) (hth : lg.throws = false)
    (hr : (writeToClipboard text options env).outcome = .ok r) :
    (r.cancelled = none → (writeToClipboard text options env).logs ≠ []) ∧
    (r.cancelled = some true →
      ∀ e ∈ (writeToClipboard text options env).logs, e.level = .warning) := by
  by_cases h0 : sigAborted0 options.signal = true
  · simp [writeToClipboard, h0] at hr
    constructor
    · intro hc
      rw [← hr] at hc
      simp [cancelResult] at hc
    · intro _ e he
      simp [writeToClipboard, h0] at he
  · have h0' : sigAborted0 options.signal = false := by
      simpa using h0
    by_cases hv : isInvalidText text = true
    · have hth' : ¬lg.throws = true := by
        simp [hth]
      constructor
      · intro _
        simp [writeToClipboard, h0, hv, hl, hth']
      · intro hc
        simp [writeToClipboard, h0, hv, hl, hth'] at hr
        rw [← hr] at hc
        simp [invalidResult] at hc
    · have hv' : isInvalidText text = false := by
        simpa using hv
      rcases hlo : (callLoop text options env).exit with r' | _ | mm
      · have heq := writeToClipboard_returned_eq text options env r' h0' hv' hlo
        rw [heq] at hr
        simp at hr
        have hlo2 := hlo
        rw [callLoop, hl] at hlo2
        constructor
        · intro hc
          rw [heq]
          show (callLoop text options env).logs ≠ []
          rw [callLoop, hl]
          exact runMethods_returned_logs_ne (textString text) options.identifier lg
            options.successMessage options.signal options.callback env hth
            (methodOrder env.isExtensionContext) 0 r' hlo2 (by rw [hr]; exact hc)
        · intro hc e he
          rw [heq] at he
          have he' : e ∈ (callLoop text options env).logs := he
          rw [callLoop] at he'
          exact runMethods_cancelled_logs_warning (textString text) options.identifier
            options.logger options.successMessage options.signal options.callback env
            (methodOrder env.isExtensionContext) 0 r'
            (by have h := hlo; rw [callLoop] at h; exact h) (by rw [hr]; exact hc) e he'
      · have heq := writeToClipboard_exhausted_logger_eq text options env lg h0' hv' hl hth hlo
        rw [heq] at hr
        simp at hr
        constructor
        · intro _
          rw [heq]
          simp
        · intro hc
          exfalso
          rw [← hr] at hc
          simp [exhaustedResult] at hc
      · have heq := writeToClipboard_threw_eq text options env mm h0' hv' hlo
        rw [heq] at hr
        simp at hr

/-- C6 amended witness: a concrete exhaustion run with a non-throwing logger
invokes the logger. -/
theorem writeToClipboard_logger_on_terminal_outcomes_witness :
    (writeToClipboard (.str "w") { logger := some ⟨false, "m"⟩ }
      { isExtensionContext := false, race := fun _ => .rejected "f" }).logs ≠ [] :=
  (writeToClipboard_logger_on_terminal_outcomes (.str "w") { logger := some ⟨false, "m"⟩ }
    { isExtensionContext := false, race := fun _ => .rejected "f" } ⟨false, "m"⟩
    (exhaustedResult none none) rfl rfl (by decide)).1 rfl

/-- C7 counterexample: two runs differing only in the logger — absent versus
one that throws when invoked — do not return equal results: the first returns
a success result, the second propagates the logger's error and returns no
result at all. -/
theorem writeToClipboard_throwing_logger_cex :
    (writeToClipboard (.str "x") {}
      { isExtensionContext := false, race := fun _ => .resolved true }).outcome =
      .ok { success := true, method := some "navigator.clipboard" } ∧
    (writeToClipboard (.str "x") { logger := some ⟨true, "logger boom"⟩ }
      { isExtensionContext := false, race := fun _ => .resolved true }).outcome =
      .error "logger boom" :=
  ⟨by decide, by decide⟩

/-- C7 amended: for a fixed input and environment behaviour, the returned
result is unchanged by supplying or omitting a callback and by supplying or
omitting a non-throwing logger (a callback may even throw: it runs in a later
microtask and cannot affect the already-returned result); only a logger that
itself throws changes the outcome, by making the call reject. -/
theorem writeToClipboard_result_collab_independent (text : TextInput)
    (options : ClipboardOptions) (env : Env) (m : String) (cb cb' : Bool) :
    (writeToClipboard text
      { options with logger := some ⟨false, m⟩, callback := cb } env).outcome =
    (writeToClipboard text { options with logger := none, callback := cb' } env).outcome := by
  by_cases h0 : sigAborted0 options.signal = true
  · simp [writeToClipboard, h0]
  · have h0' : sigAborted0 options.signal = false := by
      simpa using h0
    by_cases hv : isInvalidText text = true
    · simp [writeToClipboard, h0, hv]
    · have hv' : isInvalidText text = false := by
        simpa using hv
      have hex := runMethods_exit_collab_independent (textString text) options.identifier
        options.successMessage options.signal env m cb cb'
      rcases hlo2 : (runMethods (textString text) options.identifier none
          options.successMessage options.signal cb' env
          (methodOrder env.isExtensionContext) 0).exit with r | _ | mm
      · have hlo1 : (callLoop text
            { options with logger := some ⟨false, m⟩, callback := cb } env).exit =
            .returned r := by
          rw [callLoop]
          show (runMethods (textString text) options.identifier (some ⟨false, m⟩)
            options.successMessage options.signal cb env
            (methodOrder env.isExtensionContext) 0).exit = .returned r
          rw [hex]
          exact hlo2
        have hlo2' : (callLoop text
            { options with logger := none, callback := cb' } env).exit = .returned r := by
          rw [callLoop]
          exact hlo2
        rw [writeToClipboard_returned_eq text
            { options with logger := some ⟨false, m⟩, callback := cb } env r h0' hv' hlo1,
          writeToClipboard_returned_eq text
            { options with logger := none, callback := cb' } env r h0' hv' hlo2']
      · have hlo1 : (callLoop text
            { options with logger := some ⟨false, m⟩, callback := cb } env).exit =
            .exhausted := by
          rw [callLoop]
          show (runMethods (textString text) options.identifier (some ⟨false, m⟩)
            options.successMessage options.signal cb env
            (methodOrder env.isExtensionContext) 0).exit = .exhausted
          rw [hex]
          exact hlo2
        have hlo2' : (callLoop text
            { options with logger := none, callback := cb' } env).exit = .exhausted := by
          rw [callLoop]
          exact hlo2
        rw [writeToClipboard_exhausted_logger_eq text
            { options with logger := some ⟨false, m⟩, callback := cb } env
            ⟨false, m⟩ h0' hv' rfl rfl hlo1,
          writeToClipboard_exhausted_none_eq text
            { options with logger := none, callback := cb' } env h0' hv' rfl hlo2']
      · have hlo1 : (callLoop text
            { options with logger := some ⟨false, m⟩, callback := cb } env).exit =
            .threw mm := by
          rw [callLoop]
          show (runMethods (textString text) options.identifier (some ⟨false, m⟩)
            options.successMessage options.signal cb env
            (methodOrder env.isExtensionContext) 0).exit = .threw mm
          rw [hex]
          exact hlo2
        have hlo2' : (callLoop text
            { options with logger := none, callback := cb' } env).exit = .threw mm := by
          rw [callLoop]
          exact hlo2
        rw [writeToClipboard_threw_eq text
            { options with logger := some ⟨false, m⟩, callback := cb } env mm h0' hv' hlo1,
          writeToClipboard_threw_eq text
            { options with logger := none, callback := cb' } env mm h0' hv' hlo2']

/-- C8 counterexample: a method attempt that settles immediately, with no
abort ever firing, leaves the 5000 ms timeout timer pending at settlement —
the source's only `clearTimeout` sits inside the abort listener. -/
theorem timeoutTimer_pending_after_attempt_wins_cex :
    timerPendingAfterSettle { timeout := 5000, attemptTime := some 0, abortTime := none } =
      true ∧
    timerClearedBy { timeout := 5000, attemptTime := some 0, abortTime := none }
      (raceSettleTime { timeout := 5000, attemptTime := some 0, abortTime := none }) =
      false :=
  ⟨by decide, by decide⟩

/-- C8 amended: the per-method timer is cleared only when the abort listener
fires, so a pending timer remains after the race settles exactly when the
method attempt settles strictly before both the timeout and any abort; when
the timeout or the abort branch wins, no pending timer remains. -/
theorem timerPendingAfterSettle_characterization (c : RaceConfig) :
    timerPendingAfterSettle c = true ↔
      ∃ k, c.attemptTime = some k ∧ k < c.timeout ∧
        ∀ a, c.abortTime = some a → k < a := by
  rcases c with ⟨t, at_, ab⟩
  rcases at_ with _ | k <;> rcases ab with _ | a <;>
    simp [timerPendingAfterSettle, timerFiredBy, timerClearedBy, raceSettleTime] <;>
    omega

/-- C8 amended witness: a concrete race in which the attempt settles at
instant 3, before the 5000 ms timeout and before the abort at instant 10,
leaves the timer pending. -/
theorem timerPendingAfterSettle_characterization_witness :
    timerPendingAfterSettle { timeout := 5000, attemptTime := some 3, abortTime := some 10 } =
      true :=
  (timerPendingAfterSettle_characterization
    { timeout := 5000, attemptTime := some 3, abortTime := some 10 }).mpr
    ⟨3, rfl, by decide, fun a ha => by simp at ha; omega⟩

/-- Every branch of the 0 ms timer callback of `writeWithExecCommand` leaves
no element attached. -/
theorem execCbRun_clean (e : ExecEnv) : attachedAfter (execCbRun e).1 = [] := by
  unfold execCbRun
  repeat' split
  all_goals rfl

/-- Every branch of the trigger-timer callback of `writeWithWebKitFallback`
removes both synthesized elements. -/
theorem webkitTimerOps_removes (e : WebkitEnv) :
    (webkitTimerOps e).1 = [.remove "textarea", .remove "button"] := by
  unfold webkitTimerOps
  repeat' split
  all_goals rfl

/-- `writeWithExecCommand` leaves nothing attached, both at settlement and
after all its scheduled tasks have run. -/
theorem writeWithExecCommandTrace_ops_clean (e : ExecEnv) :
    attachedAfter (writeWithExecCommandTrace e).ops = [] ∧
    attachedAfter (writeWithExecCommandTrace e).opsAtSettle = [] := by
  simp only [writeWithExecCommandTrace]
  split
  · exact ⟨rfl, rfl⟩
  · split
    · exact ⟨execCbRun_clean e, rfl⟩
    · exact ⟨execCbRun_clean e, execCbRun_clean e⟩

/-- `writeWithWebKitFallback` leaves nothing attached once all its scheduled
tasks have run; at settlement nothing is attached except when the abort
listener settles the promise while the trigger timer is still pending. -/
theorem writeWithWebKitFallbackTrace_ops_clean (e : WebkitEnv) :
    attachedAfter (writeWithWebKitFallbackTrace e).ops = [] ∧
    ((e.listenerFiresEarly && e.signalPresent) = false →
      attachedAfter (writeWithWebKitFallbackTrace e).opsAtSettle = []) := by
  simp only [writeWithWebKitFallbackTrace]
  split
  · exact ⟨rfl, fun _ => rfl⟩
  · split
    · exact ⟨rfl, fun _ => rfl⟩
    · split
      · next h =>
        constructor
        · show attachedAfter ([DomOp.attach "textarea", DomOp.attach "button"] ++
            (webkitTimerOps e).1) = []
          rw [webkitTimerOps_removes]
          decide
        · intro hc
          rw [hc] at h
          cases h
      · constructor
        · show attachedAfter ([DomOp.attach "textarea", DomOp.attach "button"] ++
            (webkitTimerOps e).1) = []
          rw [webkitTimerOps_removes]
          decide
        · intro _
          show attachedAfter ([DomOp.attach "textarea", DomOp.attach "button"] ++
            (webkitTimerOps e).1) = []
          rw [webkitTimerOps_removes]
          decide

/-- C9 counterexample: when the abort fires after both elements of the
gesture-simulated strategy are attached but before its 0 ms trigger timer
runs, the abort listener settles the promise with both elements still
attached — they are removed only later, by the pending timer callback. -/
theorem webkitFallback_attached_at_settle_cex :
    attachedAfter (writeWithWebKitFallbackTrace
      { abortedAtEntry := false, abortedAfterAttach := false, listenerFiresEarly := true,
        abortedAtTimer := true, execB := .returns true, signalPresent := true }).opsAtSettle =
      ["button", "textarea"] ∧
    attachedAfter (writeWithWebKitFallbackTrace
      { abortedAtEntry := false, abortedAfterAttach := false, listenerFiresEarly := true,
        abortedAtTimer := true, execB := .returns true, signalPresent := true }).opsAtSettle ≠
      [] :=
  ⟨by decide, by decide⟩

/-- C9 amended: on every exit path of the legacy and gesture-simulated
strategies, every synthesized element is removed by the time all scheduled
tasks of the strategy have run; moreover nothing remains attached at the
instant of settlement, except in the gesture-simulated strategy when the
abort listener settles the promise before the trigger timer has run (the
still-pending timer callback then removes both elements). -/
theorem strategies_remove_synthesized_elements (eE : ExecEnv) (eW : WebkitEnv) :
    attachedAfter (writeWithExecCommandTrace eE).ops = [] ∧
    attachedAfter (writeWithExecCommandTrace eE).opsAtSettle = [] ∧
    attachedAfter (writeWithWebKitFallbackTrace eW).ops = [] ∧
    ((eW.listenerFiresEarly && eW.signalPresent) = false →
      attachedAfter (writeWithWebKitFallbackTrace eW).opsAtSettle = []) :=
  ⟨(writeWithExecCommandTrace_ops_clean eE).1, (writeWithExecCommandTrace_ops_clean eE).2,
    (writeWithWebKitFallbackTrace_ops_clean eW).1,
    (writeWithWebKitFallbackTrace_ops_clean eW).2⟩

/-- C9 amended witness: a concrete successful gesture-simulated run leaves
nothing attached at settlement. -/
theorem strategies_remove_synthesized_elements_witness :
    attachedAfter (writeWithWebKitFallbackTrace
      { abortedAtEntry := false, abortedAfterAttach := false, listenerFiresEarly := false,
        abortedAtTimer := false, execB := .returns true, signalPresent := true }).opsAtSettle =
      [] :=
  (strategies_remove_synthesized_elements
    { abortedAtEntry := false, listenerFiresEarly := false, abortedAtCbStart := false,
      abortedAfterAttach := false, execAvailable := true, exec1 := .returns true,
      exec2 := .returns true, exec3 := .returns true, signalPresent := true }
    { abortedAtEntry := false, abortedAfterAttach := false, listenerFiresEarly := false,
      abortedAtTimer := false, execB := .returns true, signalPresent := true }).2.2.2 rfl

/-- C10 counterexample: an attempted `navigator.clipboard` method in a host
without the Clipboard API registers the race abort listener but no
strategy-internal listener — its one registered listener, not two, refuting
"one inside the timeout race and one inside the strategy itself" for every
attempted method. -/
theorem clipboardAPI_no_internal_listener_cex :
    raceAbortListeners true = 1 ∧
    writeWithClipboardAPIListeners
      { aborted := false, apiAvailable := false, isExtensionContext := false,
        signalPresent := true } = 0 ∧
    raceAbortListeners true + writeWithClipboardAPIListeners
      { aborted := false, apiAvailable := false, isExtensionContext := false,
        signalPresent := true } ≠ 2 :=
  ⟨rfl, rfl, by decide⟩

/-- C10 amended: with a signal supplied, every attempted method registers the
abort listener of its timeout race; the strategy itself registers one further
listener exactly when it reaches its internal registration point (modern API:
not pre-aborted, API available, not the extension direct path; legacy and
gesture strategies: not pre-aborted; extension strategy: not pre-aborted and
in an extension context); and a `{ once: true }` listener that the source
never unregisters stays subscribed whenever the signal never fires, so the
listeners accumulate across attempts and calls on a never-firing signal. -/
theorem abort_listeners_accumulate (cae : ClipboardAPIEnv) (ee : ExecEnv) (we : WebkitEnv)
    (xe : ExtEnv) :
    raceAbortListeners true = 1 ∧
    onceListenerStillSubscribed false = true ∧
    (writeWithClipboardAPIListeners cae = 1 ↔
      cae.signalPresent = true ∧ cae.aborted = false ∧ cae.apiAvailable = true ∧
        cae.isExtensionContext = false) ∧
    ((writeWithExecCommandTrace ee).listeners = 1 ↔
      ee.signalPresent = true ∧ ee.abortedAtEntry = false) ∧
    ((writeWithWebKitFallbackTrace we).listeners = 1 ↔
      we.signalPresent = true ∧ we.abortedAtEntry = false) ∧
    (writeWithExtensionFallbackListeners xe = 1 ↔
      xe.signalPresent = true ∧ xe.aborted = false ∧ xe.isExtensionContext = true) := by
  refine ⟨rfl, rfl, ?_, ?_, ?_, ?_⟩
  · rcases cae with ⟨a, b, c, d⟩
    cases a <;> cases b <;> cases c <;> cases d <;>
      simp [writeWithClipboardAPIListeners]
  · rcases ee with ⟨a1, a2, a3, a4, a5, x1, x2, x3, sp⟩
    cases a1 <;> cases a2 <;> cases sp <;>
      simp [writeWithExecCommandTrace]
  · rcases we with ⟨b1, b2, b3, b4, xb, sp⟩
    cases b1 <;> cases b2 <;> cases b3 <;> cases sp <;>
      simp [writeWithWebKitFallbackTrace]
  · rcases xe with ⟨a, b, c⟩
    cases a <;> cases b <;> cases c <;>
      simp [writeWithExtensionFallbackListeners]

/-- C10 amended witness: a concrete modern-API run that reaches its
registration point registers exactly one strategy-internal listener. -/
theorem abort_listeners_accumulate_witness :
    writeWithClipboardAPIListeners
      { aborted := false, apiAvailable := true, isExtensionContext := false,
        signalPresent := true } = 1 :=
  (abort_listeners_accumulate
    { aborted := false, apiAvailable := true, isExtensionContext := false,
      signalPresent := true }
    { abortedAtEntry := false, listenerFiresEarly := false, abortedAtCbStart := false,
      abortedAfterAttach := false, execAvailable := true, exec1 := .returns true,
      exec2 := .returns true, exec3 := .returns true, signalPresent := true }
    { abortedAtEntry := false, abortedAfterAttach := false, listenerFiresEarly := false,
      abortedAtTimer := false, execB := .returns true, signalPresent := true }
    { aborted := false, isExtensionContext := true, signalPresent := true }).2.2.1.mpr
    ⟨rfl, rfl, rfl, rfl⟩
